import Mathlib

/-
Verification of the BloomTracker phenology analytics code.

Embedding conventions:
* Calendar dates are modeled as integer day numbers (the code stores dates as
  `YYYY-MM-DD` strings, whose lexicographic order coincides with chronological
  order, and converts them to `datetime` for arithmetic; `gap_days` and
  `timedelta(days = k)` become integer subtraction and addition).
* NDVI values and all float arithmetic are modeled exactly over `ℚ`.
* `numpy` reductions: `np.mean` is `listMean`, the square of `np.std` (population,
  `ddof = 0`) is `popVar`, `np.diff` is `diffs`, `np.argmax` (first index of the
  maximum) is `argmaxIdx`, Python `max` is `listMax`.
* Comparisons of a float against a square root (`d > 1.5 * np.std(...)`,
  `abs(z) > threshold`) are embedded as exact inequalities between squares; the
  lemmas `exceedsThreshold_iff_real`, `zscoreGT_iff_real` and
  `intSqrt_eq_floor_real_sqrt` prove these equivalent to the real-number
  comparisons with `Real.sqrt`.
-/

namespace BloomTracker

/-- Mean of a list of rationals (`np.mean`); `0` on the empty list. -/
def listMean (l : List ℚ) : ℚ := l.sum / l.length

/-- Population variance (`np.std(l) ** 2`, `ddof = 0`). -/
def popVar (l : List ℚ) : ℚ := ((l.map fun x => (x - listMean l) ^ 2).sum) / l.length

/-- First differences (`np.diff`): element `i` is `l[i+1] - l[i]`. -/
def diffs (l : List ℚ) : List ℚ := (l.zip l.tail).map fun p => p.2 - p.1

/-- Maximum of a list (Python `max`); `0` on the empty list. -/
def listMax : List ℚ → ℚ
  | [] => 0
  | a :: l => l.foldl max a

/-- First index attaining the maximum (`np.argmax`). -/
def argmaxIdx (l : List ℚ) : ℕ := l.findIdx fun x => x == listMax l

/-- Exact rational form of the float test `1.5 * sqrt v < d`
(see `exceedsThreshold_iff_real`). -/
def exceedsThreshold (d v : ℚ) : Bool := decide (0 < d ∧ 9 * v < 4 * d ^ 2)

/-- Truncation of a square root to an integer: `int(np.std(...))` where `q` is the
exact variance (the square of the standard deviation); see
`intSqrt_eq_floor_real_sqrt`. -/
def intSqrt (q : ℚ) : ℕ := Nat.sqrt ⌊q⌋.toNat

/-- Python `int()`: truncation toward zero. -/
def pyInt (q : ℚ) : ℤ := if 0 ≤ q then ⌊q⌋ else ⌈q⌉

/-- One row of the NDVI data frame consumed by `bloom_detector.detect_bloom`. -/
structure NdviRow where
  date : ℤ
  ndvi : ℚ
deriving DecidableEq, Repr

/-- Source `src/backend/bloom_detector.py`, `detect_bloom`: for each index
`i ∈ [1, len)` append `Date[i]` whenever `NDVI[i] - NDVI[i-1] > threshold`.
The loop over adjacent index pairs is the traversal of `df.zip df.tail`. -/
def detect_bloom (df : List NdviRow) (threshold : ℚ) : List ℤ :=
  (df.zip df.tail).filterMap fun p =>
    if threshold < p.2.ndvi - p.1.ndvi then some p.2.date else none

/-- Statement of C10 in the claim's own indexed terms: the dates of exactly those
indices `i ≥ 1` with `NDVI[i] - NDVI[i-1] > threshold`, in index order. -/
def bloomDatesSpec (df : List NdviRow) (threshold : ℚ) : List ℤ :=
  (((List.range df.length).filter fun i =>
      decide (1 ≤ i) &&
        decide (threshold < (df.getD i ⟨0, 0⟩).ndvi - (df.getD (i - 1) ⟨0, 0⟩).ndvi)).map
    fun i => (df.getD i ⟨0, 0⟩).date)

/-- One time-series sample as handled by `utils/helpers.py`: the code's dicts
carry a date, the interpolated value key (`ndvi`), and on inserted points the
marker `interpolated: True`; input samples carry no marker (`false` here). -/
structure Sample where
  date : ℤ
  ndvi : ℚ
  interpolated : Bool := false
deriving DecidableEq, Repr

/-- Ordering used by the Python stable sort
`sorted(timeseries, key=lambda x: x['date'])`. -/
def dateLE (a b : Sample) : Prop := a.date ≤ b.date

instance : DecidableRel dateLE := fun a b => inferInstanceAs (Decidable (a.date ≤ b.date))

instance : IsTotal Sample dateLE := ⟨fun a b => Int.le_total a.date b.date⟩

instance : IsTrans Sample dateLE := ⟨fun _ _ _ h1 h2 => le_trans h1 h2⟩

/-- Stable sort by date; Python's `sorted` is stable, as is insertion sort. -/
def sortByDate (ts : List Sample) : List Sample := List.insertionSort dateLE ts

/-- Interpolated points inserted between two consecutive samples when the gap
exceeds 16 days: with `num_points = gap // 8`, for `j = 1 .. num_points - 1`
a point dated `a.date + 8 * j` whose value is
`a.ndvi + (b.ndvi - a.ndvi) * (j / num_points)`, marked `interpolated`. -/
def gapFill (a b : Sample) : List Sample :=
  if 16 < b.date - a.date then
    (List.range (((b.date - a.date) / 8).toNat - 1)).map fun (j : ℕ) =>
      { date := a.date + 8 * ((j : ℤ) + 1)
        ndvi := a.ndvi + (b.ndvi - a.ndvi) * (((j : ℚ) + 1) / (((b.date - a.date) / 8).toNat : ℚ))
        interpolated := true }
  else []

/-- The gap-filling pass of `interpolate_missing_values`: emit each sample of the
sorted series followed by the interpolated points for the gap to its successor. -/
def fillGaps : List Sample → List Sample
  | [] => []
  | [a] => [a]
  | a :: b :: rest => a :: (gapFill a b ++ fillGaps (b :: rest))

/-- Source `src/backend/utils/helpers.py`, `interpolate_missing_values`
(the normalizer): sort by date, then fill gaps larger than 16 days. The code
returns `[]` unchanged on an empty input. -/
def interpolate_missing_values (ts : List Sample) : List Sample :=
  fillGaps (sortByDate ts)

/-- Adjacent-pair relation holding in the output of `fillGaps` on a sorted input:
dates ascend and consecutive gaps are at most 16 days. -/
def StepOK (a b : Sample) : Prop := a.date ≤ b.date ∧ b.date ≤ a.date + 16

/-- Bloom event record produced by `detect_bloom_from_ndvi` in
`src/backend/app.py` (and identically by `detect_bloom_real` in
`src/backend/services/nasa_api.py`). -/
structure BloomEvent where
  bloom_onset_date : ℤ
  bloom_onset_ndvi : ℚ
  peak_date : ℤ
  peak_ndvi : ℚ
  confidence : ℚ
deriving DecidableEq, Repr

/-- Source `src/backend/app.py`, `detect_bloom_from_ndvi`: with fewer than 3
samples return `None`; otherwise compute `derivatives = np.diff(ndvi_values)`,
`threshold = np.std(derivatives) * 1.5`, take the first index of
`np.where(derivatives > threshold)[0]` if any, and report onset at that
derivative index (`dates[bloom_idx]`, `ndvi_values[bloom_idx]`), the global
(first) argmax as peak, and `min(derivatives[bloom_idx] * 10, 1.0)` as
confidence. The float comparison `derivatives > threshold` is embedded by
`exceedsThreshold` (exact squares). -/
def detect_bloom_from_ndvi (ts : List Sample) : Option BloomEvent :=
  if ts.length < 3 then none
  else
    match (List.range (diffs (ts.map fun s => s.ndvi)).length).filter
        (fun i => exceedsThreshold ((diffs (ts.map fun s => s.ndvi)).getD i 0)
          (popVar (diffs (ts.map fun s => s.ndvi)))) with
    | [] => none
    | bloom_idx :: _ =>
      some { bloom_onset_date := (ts.map fun s => s.date).getD bloom_idx 0
             bloom_onset_ndvi := (ts.map fun s => s.ndvi).getD bloom_idx 0
             peak_date := (ts.map fun s => s.date).getD (argmaxIdx (ts.map fun s => s.ndvi)) 0
             peak_ndvi := listMax (ts.map fun s => s.ndvi)
             confidence := min ((diffs (ts.map fun s => s.ndvi)).getD bloom_idx 0 * 10) 1 }

/-- Source `src/backend/utils/helpers.py`, `detect_outliers`: with fewer than 3
values or zero standard deviation return `[]`; otherwise return the indices `i`
with `abs((values[i] - mean) / std) > threshold` (default threshold 2.5). The
float test is embedded exactly as `threshold^2 * variance < (values[i] - mean)^2`;
`zscoreGT_iff_real` proves this equivalent to the real-number comparison. -/
def detect_outliers (values : List ℚ) (threshold : ℚ) : List ℕ :=
  if values.length < 3 then []
  else if popVar values = 0 then []
  else (List.range values.length).filter fun i =>
    decide (threshold ^ 2 * popVar values < (values.getD i 0 - listMean values) ^ 2)

/-- Confidence level of a bloom-window prediction. -/
inductive ConfLevel
  | high
  | medium
  | low
deriving DecidableEq, Repr

/-- Prediction record of `predict_bloom_window`. Dates are modeled by
day-of-year numbers: the code renders `predicted_date` as
`datetime(year, 1, 1) + timedelta(days = avg_bloom_day - 1)`, whose day-of-year
is `avg_bloom_day`, and the window bounds as the same date shifted by
`std_bloom_day` days. -/
structure Prediction where
  predicted_day : ℤ
  window_start_day : ℤ
  window_end_day : ℤ
  variability_days : ℕ
  confidence : ConfLevel
deriving DecidableEq, Repr

/-- One historical bloom record as consumed by `predict_bloom_window`. -/
structure HistRecord where
  year : ℤ
  day_of_year : ℤ
  peak_ndvi : ℚ
deriving DecidableEq, Repr

/-- Source `src/backend/app.py`, `predict_bloom_window`: `None` when the history
has fewer than 2 records (`if not historical_blooms or len(historical_blooms) < 2`);
otherwise `avg_bloom_day = int(np.mean(bloom_days))`,
`std_bloom_day = int(np.std(bloom_days))` (the guard `if len(bloom_days) > 1
else 7` always takes the first branch here), confidence `high` below 7,
`medium` below 14, else `low`, and a window of `std_bloom_day` days on each
side of the predicted date. -/
def predict_bloom_window (historical_blooms : List HistRecord) : Option Prediction :=
  if historical_blooms.length < 2 then none
  else
    some { predicted_day := pyInt (listMean (historical_blooms.map fun h => (h.day_of_year : ℚ)))
           window_start_day :=
             pyInt (listMean (historical_blooms.map fun h => (h.day_of_year : ℚ))) -
               intSqrt (popVar (historical_blooms.map fun h => (h.day_of_year : ℚ)))
           window_end_day :=
             pyInt (listMean (historical_blooms.map fun h => (h.day_of_year : ℚ))) +
               intSqrt (popVar (historical_blooms.map fun h => (h.day_of_year : ℚ)))
           variability_days := intSqrt (popVar (historical_blooms.map fun h => (h.day_of_year : ℚ)))
           confidence :=
             if intSqrt (popVar (historical_blooms.map fun h => (h.day_of_year : ℚ))) < 7 then
               ConfLevel.high
             else if intSqrt (popVar (historical_blooms.map fun h => (h.day_of_year : ℚ))) < 14 then
               ConfLevel.medium
             else ConfLevel.low }

/-- Exact model of `np.arange(start, stop, step)` for a positive step: the values
`start + k * step` for `0 ≤ k < ⌈(stop - start) / step⌉` (half-open range). -/
def arange (start stop step : ℚ) : List ℚ :=
  if 0 < step then
    (List.range (Int.toNat ⌈(stop - start) / step⌉)).map fun (k : ℕ) => start + k * step
  else []

/-- Source `src/backend/utils/helpers.py`, `generate_grid_points`: the full
cartesian grid over both `arange`s, with no cap. -/
def generate_grid_points (min_lat max_lat min_lon max_lon resolution : ℚ) :
    List (ℚ × ℚ) :=
  (arange min_lat max_lat resolution).flatMap fun lat =>
    (arange min_lon max_lon resolution).map fun lon => (lat, lon)

/-- Classification of a grid cell by mean NDVI. -/
inductive BloomStatus
  | blooming
  | vegetated
  | dormant
deriving DecidableEq, Repr

/-- Constant `BLOOM_THRESHOLD_NDVI = 0.6` from `src/backend/app.py`. -/
def BLOOM_THRESHOLD_NDVI : ℚ := 3/5

/-- Cell classification in `get_bloom_map`: `blooming` above `0.6`, `vegetated`
above `0.3`, else `dormant`. -/
def classify_cell (avg : ℚ) : BloomStatus :=
  if BLOOM_THRESHOLD_NDVI < avg then BloomStatus.blooming
  else if 3/10 < avg then BloomStatus.vegetated
  else BloomStatus.dormant

/-- One cell of the regional bloom map (`round(...)` display formatting of the
code is omitted; it does not affect which cells are evaluated). -/
structure GridCell where
  lat : ℚ
  lon : ℚ
  ndvi : ℚ
  status : BloomStatus
deriving DecidableEq, Repr

/-- Source `src/backend/app.py`, `get_bloom_map`: build `lats` and `lons` with
`np.arange`, then iterate `for lat in lats[:10]: for lon in lons[:10]` (the
"limit for performance" truncation), skip points whose fetched recent data is
empty, and classify the mean NDVI of the rest. The external data fetch
(`generate_mock_ndvi_data`, excluded from the core) is a parameter `fetch`
supplying the recent NDVI values for a point. -/
def get_bloom_map (fetch : ℚ → ℚ → List ℚ)
    (min_lat max_lat min_lon max_lon resolution : ℚ) : List GridCell :=
  ((arange min_lat max_lat resolution).take 10).flatMap fun lat =>
    ((arange min_lon max_lon resolution).take 10).filterMap fun lon =>
      if (fetch lat lon).isEmpty then none
      else some { lat := lat, lon := lon, ndvi := listMean (fetch lat lon)
                  status := classify_cell (listMean (fetch lat lon)) }


/-! ## General lemmas -/

/-- Helper: pulling the index `0` out of a filtered-then-mapped index range. -/
theorem filter_map_range_shift (g : ℕ → Bool) (h : ℕ → ℤ) (n : ℕ) :
    (((List.range (n + 1)).filter g).map h) =
      (if g 0 then [h 0] else []) ++
        (((List.range n).filter fun i => g (i + 1)).map fun i => h (i + 1)) := by
  by_cases h0 : g 0
  · simp [List.range_succ_eq_map, List.filter_cons, h0, List.filter_map, List.map_map,
      Function.comp_def]
  · simp [List.range_succ_eq_map, List.filter_cons, h0, List.filter_map, List.map_map,
      Function.comp_def]

/-- Helper: the index-based specification unfolds one adjacent pair at a time. -/
theorem bloomDatesSpec_cons_cons (x y : NdviRow) (l : List NdviRow) (t : ℚ) :
    bloomDatesSpec (x :: y :: l) t =
      (if t < y.ndvi - x.ndvi then [y.date] else []) ++ bloomDatesSpec (y :: l) t := by
  unfold bloomDatesSpec
  simp only [List.length_cons]
  rw [filter_map_range_shift, filter_map_range_shift, filter_map_range_shift]
  simp only [List.getD_cons_succ, List.getD_cons_zero, Nat.add_sub_cancel]
  norm_num

/-- Helper: the pairwise traversal equals the index-based specification. -/
theorem detect_bloom_eq_bloomDatesSpec (df : List NdviRow) (t : ℚ) :
    detect_bloom df t = bloomDatesSpec df t := by
  induction df with
  | nil => rfl
  | cons x l ih =>
    cases l with
    | nil => rfl
    | cons y rest =>
      rw [bloomDatesSpec_cons_cons]
      unfold detect_bloom at ih ⊢
      simp only [List.tail_cons, List.zip_cons_cons, List.filterMap_cons] at ih ⊢
      rw [ih]
      by_cases h : t < y.ndvi - x.ndvi <;> simp [h]

/-! ## Claim C10 -/

/-- C10: the fixed-threshold bloom-detection variant returns, in index
(chronological) order, the date of every sample whose NDVI exceeds the
immediately preceding sample's NDVI by more than the threshold — all qualifying
dates, not only the first — and returns the empty list when no consecutive
increase exceeds the threshold, including for inputs of fewer than 2 rows. -/
theorem c10_fixed_threshold_detector (df : List NdviRow) (t : ℚ) :
    detect_bloom df t = bloomDatesSpec df t ∧
      (df.length ≤ 1 → detect_bloom df t = []) ∧
      ((∀ i, 1 ≤ i → i < df.length →
          (df.getD i ⟨0, 0⟩).ndvi - (df.getD (i - 1) ⟨0, 0⟩).ndvi ≤ t) →
        detect_bloom df t = []) := by
  refine ⟨detect_bloom_eq_bloomDatesSpec df t, ?_, ?_⟩
  · intro h
    match df, h with
    | [], _ => rfl
    | [a], _ => rfl
  · intro h
    rw [detect_bloom_eq_bloomDatesSpec]
    unfold bloomDatesSpec
    rw [List.filter_eq_nil_iff.mpr, List.map_nil]
    intro i hi
    rcases Nat.eq_zero_or_pos i with h0 | h1
    · simp [h0]
    · have hle := h i h1 (List.mem_range.mp hi)
      simp only [Bool.and_eq_true, decide_eq_true_eq]
      exact fun hc => absurd hc.2 (not_lt.mpr hle)

/-- Witness for C10 at concrete inputs: a one-row frame and a two-row frame whose
only increase stays below the threshold both yield the empty list. -/
theorem c10_fixed_threshold_detector_witness :
    detect_bloom [⟨0, 1/2⟩] 0 = [] ∧ detect_bloom [⟨0, 1/10⟩, ⟨8, 1/5⟩] (3/20) = [] := by
  constructor
  · exact (c10_fixed_threshold_detector [⟨0, 1/2⟩] 0).2.1 (by norm_num)
  · refine (c10_fixed_threshold_detector [⟨0, 1/10⟩, ⟨8, 1/5⟩] (3/20)).2.2 ?_
    intro i h1 h2
    simp only [List.length_cons, List.length_nil] at h2
    have hi : i = 1 := by omega
    subst hi
    show ((1 : ℚ)/5 - 1/10 ≤ 3/20)
    norm_num

/-! ## Normalizer lemmas -/

theorem fillGaps_head? : ∀ l : List Sample, (fillGaps l).head? = l.head?
  | [] => rfl
  | [_] => rfl
  | _ :: _ :: _ => rfl

theorem chain'_map_range {α : Type} (R : α → α → Prop) (f : ℕ → α) (k : ℕ)
    (hstep : ∀ j, j + 1 < k → R (f j) (f (j + 1))) :
    List.Chain' R ((List.range k).map f) := by
  rw [List.chain'_map]
  cases k with
  | zero => simp
  | succ m =>
    rw [List.chain'_range_succ]
    exact fun j hj => hstep j (by omega)

theorem head?_map_range_succ {α : Type} (f : ℕ → α) (m : ℕ) :
    (((List.range (m + 1)).map f).head?) = some (f 0) := by
  rw [List.range_succ_eq_map]
  simp

theorem getLast?_map_range_succ {α : Type} (f : ℕ → α) (m : ℕ) :
    (((List.range (m + 1)).map f).getLast?) = some (f m) := by
  rw [List.range_succ, List.map_append]
  simp

/-- Facts about `num_points = gap // 8` when the gap exceeds 16 days. -/
theorem gap_facts (g : ℤ) (hg : 16 < g) :
    ((g / 8).toNat : ℤ) = g / 8 ∧ 2 ≤ (g / 8).toNat ∧
      8 * ((g / 8).toNat : ℤ) ≤ g ∧ g ≤ 8 * ((g / 8).toNat : ℤ) + 7 := by
  have hnz : ((g / 8).toNat : ℤ) = g / 8 :=
    Int.toNat_of_nonneg (Int.ediv_nonneg (by omega) (by norm_num))
  have hdm := Int.ediv_add_emod g 8
  have hm0 := Int.emod_nonneg g (by norm_num : (8:ℤ) ≠ 0)
  have hm7 := Int.emod_lt_of_pos g (by norm_num : (0:ℤ) < 8)
  refine ⟨hnz, ?_, by omega, by omega⟩
  have : 2 ≤ g / 8 := by
    rw [Int.le_ediv_iff_mul_le (by norm_num)]
    omega
  omega

theorem gapFill_chain (a b : Sample) (hab : a.date ≤ b.date) :
    List.Chain' StepOK (a :: (gapFill a b ++ [b])) := by
  unfold gapFill
  by_cases hgap : 16 < b.date - a.date
  · simp only [hgap, if_pos]
    obtain ⟨hnz, h2n, hmul, hmul2⟩ := gap_facts (b.date - a.date) hgap
    set n : ℕ := ((b.date - a.date) / 8).toNat with hn
    set f : ℕ → Sample := fun (j : ℕ) =>
      { date := a.date + 8 * ((j : ℤ) + 1)
        ndvi := a.ndvi + (b.ndvi - a.ndvi) * (((j : ℚ) + 1) / (n : ℚ))
        interpolated := true } with hf
    obtain ⟨m, hm⟩ : ∃ m, n - 1 = m + 1 := ⟨n - 2, by omega⟩
    rw [hm]
    refine List.chain'_cons'.mpr ⟨?_, ?_⟩
    · intro y hy
      rw [List.head?_append, head?_map_range_succ] at hy
      simp only [Option.or_some, Option.mem_some_iff] at hy
      subst hy
      simp only [StepOK, hf]
      push_cast
      omega
    · refine List.chain'_append.mpr ⟨?_, List.chain'_singleton b, ?_⟩
      · refine chain'_map_range StepOK f (m + 1) fun j hj => ?_
        simp only [StepOK, hf]
        push_cast
        omega
      · intro x hx y hy
        rw [getLast?_map_range_succ] at hx
        simp only [Option.mem_some_iff] at hx
        simp only [List.head?_cons, Option.mem_some_iff] at hy
        subst hx
        subst hy
        have hm1 : (m : ℤ) + 1 = (n : ℤ) - 1 := by
          have := congrArg (fun x : ℕ => (x : ℤ)) hm
          push_cast at this
          omega
        simp only [StepOK, hf]
        omega
  · simp only [hgap, if_neg, List.nil_append]
    exact List.chain'_pair.mpr ⟨hab, by omega⟩

theorem chain'_fillGaps : ∀ l : List Sample, List.Chain' dateLE l →
    List.Chain' StepOK (fillGaps l) := by
  intro l
  induction l with
  | nil => intro _; simp [fillGaps]
  | cons a l ih =>
    cases l with
    | nil => intro _; simp [fillGaps]
    | cons b rest =>
      intro h
      rw [List.chain'_cons] at h
      obtain ⟨hab, h2⟩ := h
      have hrec := ih h2
      have hfull := gapFill_chain a b hab
      show List.Chain' StepOK (a :: (gapFill a b ++ fillGaps (b :: rest)))
      obtain ⟨t, ht⟩ : ∃ t, fillGaps (b :: rest) = b :: t := by
        cases rest <;> exact ⟨_, rfl⟩
      rw [ht]
      rw [ht] at hrec
      have h1 : List.Chain' StepOK ((a :: gapFill a b) ++ [b]) := hfull
      rw [List.chain'_append] at h1
      refine (@List.chain'_append Sample StepOK (a :: gapFill a b) (b :: t)).mpr
        ⟨h1.1, hrec, ?_⟩
      intro x hx y hy
      simp only [List.head?_cons, Option.mem_some_iff] at hy
      subst hy
      exact h1.2.2 x hx b (by simp)

theorem fillGaps_eq_self : ∀ l : List Sample,
    List.Chain' (fun a b => b.date ≤ a.date + 16) l → fillGaps l = l := by
  intro l
  induction l with
  | nil => intro _; rfl
  | cons a l ih =>
    cases l with
    | nil => intro _; rfl
    | cons b rest =>
      intro h
      rw [List.chain'_cons] at h
      show a :: (gapFill a b ++ fillGaps (b :: rest)) = a :: b :: rest
      have hg : gapFill a b = [] := by
        unfold gapFill
        rw [if_neg]
        omega
      rw [hg, List.nil_append, ih h.2]

theorem sortByDate_sorted (ts : List Sample) : List.Chain' dateLE (sortByDate ts) :=
  (List.sorted_insertionSort dateLE ts).chain'

theorem sortByDate_eq_self (l : List Sample) (h : List.Chain' dateLE l) :
    sortByDate l = l :=
  List.Sorted.insertionSort_eq (List.chain'_iff_pairwise.mp h)

theorem sublist_fillGaps : ∀ l : List Sample, l.Sublist (fillGaps l) := by
  intro l
  induction l with
  | nil => simp [fillGaps]
  | cons a l ih =>
    cases l with
    | nil => simp [fillGaps]
    | cons b rest =>
      show (a :: b :: rest).Sublist (a :: (gapFill a b ++ fillGaps (b :: rest)))
      exact List.Sublist.cons₂ a (ih.trans (List.sublist_append_right _ _))

theorem count_le_interpolate (ts : List Sample) (s : Sample) :
    ts.count s ≤ (interpolate_missing_values ts).count s := by
  unfold interpolate_missing_values
  calc ts.count s = (sortByDate ts).count s :=
        ((List.perm_insertionSort dateLE ts).count_eq s).symm
    _ ≤ (fillGaps (sortByDate ts)).count s := (sublist_fillGaps _).count_le s

theorem gapFill_marked (a b : Sample) : ∀ s ∈ gapFill a b, s.interpolated = true := by
  intro s hs
  unfold gapFill at hs
  by_cases hgap : 16 < b.date - a.date
  · rw [if_pos hgap] at hs
    obtain ⟨j, _, rfl⟩ := List.mem_map.mp hs
    rfl
  · rw [if_neg hgap] at hs
    exact absurd hs (List.not_mem_nil s)

theorem gapFill_length (a b : Sample) (hgap : 16 < b.date - a.date) :
    ((gapFill a b).length : ℤ) = (b.date - a.date) / 8 - 1 := by
  obtain ⟨hnz, h2n, _, _⟩ := gap_facts (b.date - a.date) hgap
  unfold gapFill
  rw [if_pos hgap, List.length_map, List.length_range]
  omega

theorem gapFill_bounds (a b : Sample) : ∀ s ∈ gapFill a b,
    min a.ndvi b.ndvi ≤ s.ndvi ∧ s.ndvi ≤ max a.ndvi b.ndvi := by
  intro s hs
  unfold gapFill at hs
  by_cases hgap : 16 < b.date - a.date
  · rw [if_pos hgap] at hs
    obtain ⟨hnz, h2n, _, _⟩ := gap_facts (b.date - a.date) hgap
    set n : ℕ := ((b.date - a.date) / 8).toNat with hn
    obtain ⟨j, hj, rfl⟩ := List.mem_map.mp hs
    rw [List.mem_range] at hj
    have hnq : (2 : ℚ) ≤ (n : ℚ) := by exact_mod_cast h2n
    have ht0 : 0 < ((j : ℚ) + 1) / (n : ℚ) := by positivity
    have ht1 : ((j : ℚ) + 1) / (n : ℚ) ≤ 1 := by
      rw [div_le_one (by linarith)]
      have : (j : ℚ) + 1 ≤ (n : ℚ) - 1 := by
        have : ((j : ℕ) : ℚ) + 1 ≤ ((n - 1 : ℕ) : ℚ) := by
          exact_mod_cast Nat.succ_le_of_lt hj
        push_cast [Nat.cast_sub (by omega : 1 ≤ n)] at this
        linarith
      linarith
    set t : ℚ := ((j : ℚ) + 1) / (n : ℚ)
    show min a.ndvi b.ndvi ≤ a.ndvi + (b.ndvi - a.ndvi) * t ∧
      a.ndvi + (b.ndvi - a.ndvi) * t ≤ max a.ndvi b.ndvi
    rcases le_total a.ndvi b.ndvi with h | h
    · rw [min_eq_left h, max_eq_right h]
      constructor <;> nlinarith [sub_nonneg.mpr h]
    · rw [min_eq_right h, max_eq_left h]
      constructor <;> nlinarith [sub_nonneg.mpr h]
  · rw [if_neg hgap] at hs
    exact absurd hs (List.not_mem_nil s)

theorem sortByDate_pair (a b : Sample) (hab : a.date ≤ b.date) :
    sortByDate [a, b] = [a, b] := by
  simp [sortByDate, List.insertionSort, List.orderedInsert, dateLE, hab]

theorem interpolate_pair (a b : Sample) (hab : a.date ≤ b.date) :
    interpolate_missing_values [a, b] = a :: (gapFill a b ++ [b]) := by
  unfold interpolate_missing_values
  rw [sortByDate_pair a b hab]
  rfl

theorem interpolate_pair_filter (a b : Sample) (hab : a.date ≤ b.date)
    (ha : a.interpolated = false) (hb : b.interpolated = false) :
    (interpolate_missing_values [a, b]).filter (fun s => s.interpolated) = gapFill a b := by
  rw [interpolate_pair a b hab, List.filter_cons, List.filter_append]
  simp only [ha, List.filter_cons, hb, List.filter_nil, List.append_nil,
    Bool.false_eq_true, if_false]
  rw [List.filter_eq_self.mpr (gapFill_marked a b)]

/-! ## Claim C9 -/

/-- C9: the normalizer is idempotent — one pass leaves the series sorted with
every consecutive gap at most 16 days, so applying it to its own output returns
that output unchanged. -/
theorem c9_normalize_idempotent (ts : List Sample) :
    interpolate_missing_values (interpolate_missing_values ts) =
      interpolate_missing_values ts := by
  unfold interpolate_missing_values
  have h1 : List.Chain' dateLE (sortByDate ts) := sortByDate_sorted ts
  have h2 : List.Chain' StepOK (fillGaps (sortByDate ts)) := chain'_fillGaps _ h1
  rw [sortByDate_eq_self _ (h2.imp fun _ _ hab => hab.1)]
  exact fillGaps_eq_self _ (h2.imp fun _ _ hab => hab.2)

/-! ## Claim C3 -/

/-- C3 (amended): for every input the normalizer output is sorted (weakly)
ascending by date, and every input sample is retained with its multiplicity —
samples sharing a date are all kept, not deduplicated to the first occurrence. -/
theorem c3_normalize_sorted_duplicates_kept (ts : List Sample) :
    List.Chain' dateLE (interpolate_missing_values ts) ∧
      ∀ s : Sample, ts.count s ≤ (interpolate_missing_values ts).count s :=
  ⟨(chain'_fillGaps _ (sortByDate_sorted ts)).imp fun _ _ h => h.1,
    fun s => count_le_interpolate ts s⟩

/-- Counterexample to C3 as stated: two samples sharing date `0` are both kept by
the normalizer, so the output is not strictly ascending by date and the duplicate
date is not resolved by keeping only the first occurrence. -/
theorem c3_counterexample :
    interpolate_missing_values [⟨0, 1/2, false⟩, ⟨0, 1/4, false⟩] =
        [⟨0, 1/2, false⟩, ⟨0, 1/4, false⟩] ∧
      ¬ List.Pairwise (fun a b : Sample => a.date < b.date)
          (interpolate_missing_values [⟨0, 1/2, false⟩, ⟨0, 1/4, false⟩]) := by
  have h : interpolate_missing_values [⟨0, 1/2, false⟩, ⟨0, 1/4, false⟩] =
      [⟨0, 1/2, false⟩, ⟨0, 1/4, false⟩] := by
    rw [interpolate_pair _ _ (by norm_num)]
    norm_num [gapFill]
  refine ⟨h, ?_⟩
  rw [h]
  simp

/-! ## Claim C6 -/

/-- C6: for a two-sample input `gap = b.date - a.date > 16` days apart, the
normalizer inserts exactly `gap / 8 - 1` interpolated samples between them, each
carrying the `interpolated := true` marker, and each interpolated NDVI value lies
between the two bounding known values. -/
theorem c6_gap_interpolation (a b : Sample) (hgap : 16 < b.date - a.date)
    (ha : a.interpolated = false) (hb : b.interpolated = false) :
    (((interpolate_missing_values [a, b]).filter fun s => s.interpolated).length : ℤ)
        = (b.date - a.date) / 8 - 1 ∧
      ∀ s ∈ (interpolate_missing_values [a, b]).filter fun s => s.interpolated,
        s.interpolated = true ∧ min a.ndvi b.ndvi ≤ s.ndvi ∧ s.ndvi ≤ max a.ndvi b.ndvi := by
  have hab : a.date ≤ b.date := by omega
  rw [interpolate_pair_filter a b hab ha hb]
  exact ⟨gapFill_length a b hgap,
    fun s hs => ⟨gapFill_marked a b s hs, gapFill_bounds a b s hs⟩⟩

/-- Witness for C6: dates 40 days apart yield exactly `40 / 8 - 1 = 4`
interpolated points. -/
theorem c6_gap_interpolation_witness :
    ((interpolate_missing_values [⟨0, 0, false⟩, ⟨40, 1, false⟩]).filter
      fun s => s.interpolated).length = 4 := by
  have h := (c6_gap_interpolation ⟨0, 0, false⟩ ⟨40, 1, false⟩ (by decide) rfl rfl).1
  have h4 : ((40 : ℤ) - 0) / 8 - 1 = 4 := by decide
  rw [h4] at h
  exact_mod_cast h

/-! ## Claim C8 -/

/-- C8 (amended): the normalizer returns the empty list exactly on the empty
input; in particular the empty input produces an empty result, not a failure. -/
theorem c8_empty_input (ts : List Sample) :
    interpolate_missing_values ts = [] ↔ ts = [] := by
  constructor
  · intro h
    have hh : (fillGaps (sortByDate ts)).head? = (sortByDate ts).head? := fillGaps_head? _
    rw [show fillGaps (sortByDate ts) = interpolate_missing_values ts from rfl, h] at hh
    have hnil : sortByDate ts = [] := List.head?_eq_none_iff.mp hh.symm
    have hlen := (List.perm_insertionSort dateLE ts).length_eq
    rw [show List.insertionSort dateLE ts = sortByDate ts from rfl, hnil] at hlen
    exact List.length_eq_zero.mp hlen.symm
  · intro h
    rw [h]
    rfl

/-- Counterexample to C8 as stated: on the empty sequence the code returns the
empty list as an ordinary result instead of failing with an error. -/
theorem c8_counterexample : interpolate_missing_values [] = [] := rfl

/-! ## Claim C1 -/

theorem le_foldl_max (l : List ℚ) : ∀ a : ℚ, a ≤ l.foldl max a := by
  induction l with
  | nil => intro a; simp
  | cons x l ih =>
    intro a
    calc a ≤ max a x := le_max_left a x
      _ ≤ l.foldl max (max a x) := ih (max a x)

theorem mem_le_foldl_max (l : List ℚ) : ∀ (a x : ℚ), x ∈ l → x ≤ l.foldl max a := by
  induction l with
  | nil => intro a x hx; exact absurd hx (List.not_mem_nil x)
  | cons y l ih =>
    intro a x hx
    rcases List.mem_cons.mp hx with rfl | hx
    · calc x ≤ max a x := le_max_right a x
        _ ≤ l.foldl max (max a x) := le_foldl_max l _
    · exact ih _ x hx

theorem foldl_max_mem (l : List ℚ) : ∀ a : ℚ, l.foldl max a = a ∨ l.foldl max a ∈ l := by
  induction l with
  | nil => intro a; exact Or.inl rfl
  | cons x l ih =>
    intro a
    rw [List.foldl_cons]
    rcases ih (max a x) with h | h
    · rw [h]
      rcases max_choice a x with hm | hm
      · rw [hm]
        exact Or.inl rfl
      · rw [hm]
        exact Or.inr (List.mem_cons_self x l)
    · exact Or.inr (List.mem_cons_of_mem x h)

theorem listMax_mem (l : List ℚ) (h : l ≠ []) : listMax l ∈ l := by
  match l with
  | a :: l =>
    rcases foldl_max_mem l a with h1 | h1
    · rw [listMax, h1]
      exact List.mem_cons_self a l
    · exact List.mem_cons_of_mem a h1

theorem le_listMax (l : List ℚ) (x : ℚ) (hx : x ∈ l) : x ≤ listMax l := by
  match l with
  | a :: l =>
    rcases List.mem_cons.mp hx with rfl | hx
    · exact le_foldl_max l x
    · exact mem_le_foldl_max l a x hx

theorem findIdx_eq_of_getD {α : Type} [Inhabited α] (p : α → Bool) :
    ∀ (l : List α) (i : ℕ), i < l.length → p (l.getD i default) = true →
      (∀ j, j < i → p (l.getD j default) = false) → l.findIdx p = i := by
  intro l
  induction l with
  | nil => intro i hi; intro _ _; simp at hi
  | cons x l ih =>
    intro i hi hp hb
    cases i with
    | zero =>
      simp only [List.getD_cons_zero] at hp
      rw [List.findIdx_cons, hp]
      rfl
    | succ k =>
      have hx : p x = false := by
        have := hb 0 (Nat.succ_pos k)
        simpa using this
      rw [List.findIdx_cons, hx]
      simp only [cond_false]
      have : l.findIdx p = k := by
        apply ih k (by simpa using hi) (by simpa using hp)
        intro j hj
        have := hb (j + 1) (by omega)
        simpa using this
      omega

theorem filter_range'_head (p : ℕ → Bool) :
    ∀ (k s i : ℕ), s ≤ i → i < s + k → p i = true → (∀ j, s ≤ j → j < i → p j = false) →
      ∃ t, (List.range' s k).filter p = i :: t := by
  intro k
  induction k with
  | zero => intro s i h1 h2 _ _; omega
  | succ m ih =>
    intro s i h1 h2 hp hb
    rw [List.range'_succ, List.filter_cons]
    rcases Nat.eq_or_lt_of_le h1 with rfl | hlt
    · rw [hp]
      exact ⟨_, rfl⟩
    · have hs : p s = false := hb s le_rfl hlt
      rw [hs]
      simp only [Bool.false_eq_true, if_false]
      exact ih (s + 1) i hlt (by omega) hp fun j hj1 hj2 => hb j (by omega) hj2

theorem filter_range_head (p : ℕ → Bool) (n i : ℕ) (hi : i < n) (hp : p i = true)
    (hb : ∀ j, j < i → p j = false) :
    ∃ t, (List.range n).filter p = i :: t := by
  rw [List.range_eq_range']
  exact filter_range'_head p n 0 i (Nat.zero_le i) (by omega) hp
    fun j _ hj => hb j hj

theorem popVar_nonneg (l : List ℚ) : 0 ≤ popVar l := by
  unfold popVar
  apply div_nonneg
  · apply List.sum_nonneg
    intro x hx
    obtain ⟨y, _, rfl⟩ := List.mem_map.mp hx
    positivity
  · positivity

theorem exceedsThreshold_iff_real (d v : ℚ) (hv : 0 ≤ v) :
    exceedsThreshold d v = true ↔ 1.5 * Real.sqrt (v : ℝ) < ((d : ℚ) : ℝ) := by
  rw [exceedsThreshold, decide_eq_true_eq]
  have hv' : (0:ℝ) ≤ (v:ℝ) := by exact_mod_cast hv
  constructor
  · rintro ⟨hd, h9⟩
    have hd' : (0:ℝ) < (d:ℝ) := by exact_mod_cast hd
    have h9' : 9 * (v:ℝ) < 4 * (d:ℝ) ^ 2 := by exact_mod_cast h9
    have hsq : Real.sqrt (v:ℝ) < 2 * (d:ℝ) / 3 := by
      rw [Real.sqrt_lt' (by linarith)]
      nlinarith
    norm_num
    nlinarith
  · intro h
    norm_num at h
    have hs0 : (0:ℝ) ≤ Real.sqrt (v:ℝ) := Real.sqrt_nonneg _
    have hd' : (0:ℝ) < (d:ℝ) := by nlinarith
    have hsq : Real.sqrt (v:ℝ) < 2 * (d:ℝ) / 3 := by nlinarith
    have hv2 : (v:ℝ) < (2 * (d:ℝ) / 3) ^ 2 := (Real.sqrt_lt' (by linarith)).mp hsq
    constructor
    · exact_mod_cast hd'
    · have h4 : 9 * (v:ℝ) < 4 * (d:ℝ) ^ 2 := by nlinarith
      exact_mod_cast h4

theorem argmaxIdx_eq (l : List ℚ) (p : ℕ) (hp : p < l.length)
    (hpmax : l.getD p 0 = listMax l)
    (hpfirst : ∀ j, j < p → l.getD j 0 ≠ listMax l) :
    argmaxIdx l = p := by
  apply findIdx_eq_of_getD (fun x => x == listMax l) l p hp
  · exact beq_iff_eq.mpr hpmax
  · intro j hj
    exact beq_eq_false_iff_ne.mpr (hpfirst j hj)

set_option maxHeartbeats 1000000 in
/-- Core characterization of `detect_bloom_from_ndvi`, phrased with the exact
boolean threshold test. -/
theorem detect_bloom_from_ndvi_core (ts : List Sample) (h3 : 3 ≤ ts.length) :
    (∀ i p : ℕ,
      i < (diffs (ts.map fun s => s.ndvi)).length →
      exceedsThreshold ((diffs (ts.map fun s => s.ndvi)).getD i 0)
        (popVar (diffs (ts.map fun s => s.ndvi))) = true →
      (∀ j, j < i → exceedsThreshold ((diffs (ts.map fun s => s.ndvi)).getD j 0)
        (popVar (diffs (ts.map fun s => s.ndvi))) = false) →
      p < (ts.map fun s => s.ndvi).length →
      (ts.map fun s => s.ndvi).getD p 0 = listMax (ts.map fun s => s.ndvi) →
      (∀ j, j < p → (ts.map fun s => s.ndvi).getD j 0 ≠ listMax (ts.map fun s => s.ndvi)) →
      detect_bloom_from_ndvi ts = some
        { bloom_onset_date := (ts.map fun s => s.date).getD i 0
          bloom_onset_ndvi := (ts.map fun s => s.ndvi).getD i 0
          peak_date := (ts.map fun s => s.date).getD p 0
          peak_ndvi := listMax (ts.map fun s => s.ndvi)
          confidence := min ((diffs (ts.map fun s => s.ndvi)).getD i 0 * 10) 1 }) ∧
    ((∀ j, j < (diffs (ts.map fun s => s.ndvi)).length →
        exceedsThreshold ((diffs (ts.map fun s => s.ndvi)).getD j 0)
          (popVar (diffs (ts.map fun s => s.ndvi))) = false) →
      detect_bloom_from_ndvi ts = none) := by
  constructor
  · intro i p hi hq hb hp hpmax hpfirst
    obtain ⟨t, ht⟩ := filter_range_head
      (fun k => exceedsThreshold ((diffs (ts.map fun s => s.ndvi)).getD k 0)
        (popVar (diffs (ts.map fun s => s.ndvi))))
      (diffs (ts.map fun s => s.ndvi)).length i hi hq (fun j hj => hb j hj)
    unfold detect_bloom_from_ndvi
    rw [if_neg (by omega)]
    rw [ht]
    show some _ = some _
    rw [argmaxIdx_eq (ts.map fun s => s.ndvi) p hp hpmax hpfirst]
  · intro hall
    have ht : (List.range (diffs (ts.map fun s => s.ndvi)).length).filter
        (fun k => exceedsThreshold ((diffs (ts.map fun s => s.ndvi)).getD k 0)
          (popVar (diffs (ts.map fun s => s.ndvi)))) = [] := by
      apply List.filter_eq_nil_iff.mpr
      intro k hk
      rw [hall k (List.mem_range.mp hk)]
      simp
    unfold detect_bloom_from_ndvi
    rw [if_neg (by omega)]
    rw [ht]

set_option maxHeartbeats 1000000 in
/-- C1 (amended): for a series of at least 3 samples, `detectBloom` computes the
first differences, a threshold of 1.5 times the population standard deviation of
those differences, and at the first difference exceeding the threshold returns a
BloomEvent whose onset is the EARLIER sample of the jump pair (`dates[i]`,
`ndvi[i]` for the numpy diff index `i`, i.e. `date[i-1]`/`ndvi[i-1]` in the
claim's 1-based indexing — not the later one), whose peak is the first global
maximum of the whole series regardless of onset position, and whose confidence
is `min(d * 10, 1)`; if no difference exceeds the threshold it returns `none`. -/
theorem c1_adaptive_threshold_onset (ts : List Sample) (h3 : 3 ≤ ts.length) :
    (∀ i p : ℕ,
      i < (diffs (ts.map fun s => s.ndvi)).length →
      (1.5 : ℝ) * Real.sqrt ((popVar (diffs (ts.map fun s => s.ndvi)) : ℚ) : ℝ) <
        (((diffs (ts.map fun s => s.ndvi)).getD i 0 : ℚ) : ℝ) →
      (∀ j, j < i →
        ¬ ((1.5 : ℝ) * Real.sqrt ((popVar (diffs (ts.map fun s => s.ndvi)) : ℚ) : ℝ) <
          (((diffs (ts.map fun s => s.ndvi)).getD j 0 : ℚ) : ℝ))) →
      p < ts.length →
      (∀ j, j < ts.length →
        (ts.map fun s => s.ndvi).getD j 0 ≤ (ts.map fun s => s.ndvi).getD p 0) →
      (∀ j, j < p →
        (ts.map fun s => s.ndvi).getD j 0 < (ts.map fun s => s.ndvi).getD p 0) →
      detect_bloom_from_ndvi ts = some
        { bloom_onset_date := (ts.map fun s => s.date).getD i 0
          bloom_onset_ndvi := (ts.map fun s => s.ndvi).getD i 0
          peak_date := (ts.map fun s => s.date).getD p 0
          peak_ndvi := (ts.map fun s => s.ndvi).getD p 0
          confidence := min ((diffs (ts.map fun s => s.ndvi)).getD i 0 * 10) 1 }) ∧
    ((∀ j, j < (diffs (ts.map fun s => s.ndvi)).length →
        ¬ ((1.5 : ℝ) * Real.sqrt ((popVar (diffs (ts.map fun s => s.ndvi)) : ℚ) : ℝ) <
          (((diffs (ts.map fun s => s.ndvi)).getD j 0 : ℚ) : ℝ))) →
      detect_bloom_from_ndvi ts = none) := by
  have hv := popVar_nonneg (diffs (ts.map fun s => s.ndvi))
  obtain ⟨core1, core2⟩ := detect_bloom_from_ndvi_core ts h3
  constructor
  · intro i p hi hq hb hp hmax hfirst
    have hlen : (ts.map fun s => s.ndvi).length = ts.length := List.length_map _ _
    have hb' : ∀ j, j < i →
        exceedsThreshold ((diffs (ts.map fun s => s.ndvi)).getD j 0)
          (popVar (diffs (ts.map fun s => s.ndvi))) = false := by
      intro j hj
      refine Bool.eq_false_iff.mpr fun hT => ?_
      exact hb j hj ((exceedsThreshold_iff_real _ _ hv).mp hT)
    have hpmax : (ts.map fun s => s.ndvi).getD p 0 = listMax (ts.map fun s => s.ndvi) := by
      apply le_antisymm
      · apply le_listMax
        rw [List.getD_eq_getElem _ _ (by omega)]
        exact List.getElem_mem _
      · have hne : (ts.map fun s => s.ndvi) ≠ [] := by
          intro h0
          rw [h0] at hlen
          simp at hlen
          omega
        obtain ⟨k, hk, hkeq⟩ := List.mem_iff_getElem.mp (listMax_mem _ hne)
        rw [← hkeq, ← List.getD_eq_getElem _ 0 hk]
        exact hmax k (by omega)
    have hpfirst : ∀ j, j < p →
        (ts.map fun s => s.ndvi).getD j 0 ≠ listMax (ts.map fun s => s.ndvi) := by
      intro j hj
      rw [← hpmax]
      exact ne_of_lt (hfirst j hj)
    have hcore := core1 i p hi ((exceedsThreshold_iff_real _ _ hv).mpr hq) hb'
      (by omega) hpmax hpfirst
    rw [hcore, ← hpmax]
  · intro hall
    refine core2 fun j hj => Bool.eq_false_iff.mpr fun hT => ?_
    exact hall j hj ((exceedsThreshold_iff_real _ _ hv).mp hT)

theorem c1ex_diffs :
    diffs (([⟨0, 1/5, false⟩, ⟨8, 1/5, false⟩, ⟨16, 1/5, false⟩, ⟨24, 4/5, false⟩,
      ⟨32, 4/5, false⟩] : List Sample).map fun s => s.ndvi) = [0, 0, 3/5, 0] := by
  norm_num [diffs, List.zip_cons_cons]

theorem c1ex_var : popVar [0, 0, 3/5, 0] = 27/400 := by
  norm_num [popVar, listMean]

theorem c1ex_max : listMax [1/5, 1/5, 1/5, 4/5, 4/5] = 4/5 := by
  norm_num [listMax, List.foldl, max_def]

theorem detect_c1example :
    detect_bloom_from_ndvi
      [⟨0, 1/5, false⟩, ⟨8, 1/5, false⟩, ⟨16, 1/5, false⟩, ⟨24, 4/5, false⟩,
        ⟨32, 4/5, false⟩] = some ⟨16, 1/5, 24, 4/5, 1⟩ := by
  have hnd : ([⟨0, 1/5, false⟩, ⟨8, 1/5, false⟩, ⟨16, 1/5, false⟩, ⟨24, 4/5, false⟩,
      ⟨32, 4/5, false⟩] : List Sample).map (fun s => s.ndvi)
      = [1/5, 1/5, 1/5, 4/5, 4/5] := rfl
  have hdt : ([⟨0, 1/5, false⟩, ⟨8, 1/5, false⟩, ⟨16, 1/5, false⟩, ⟨24, 4/5, false⟩,
      ⟨32, 4/5, false⟩] : List Sample).map (fun s => s.date)
      = [0, 8, 16, 24, 32] := rfl
  obtain ⟨core1, -⟩ := detect_bloom_from_ndvi_core
    [⟨0, 1/5, false⟩, ⟨8, 1/5, false⟩, ⟨16, 1/5, false⟩, ⟨24, 4/5, false⟩,
      ⟨32, 4/5, false⟩] (by norm_num)
  have h := core1 2 3 ?_ ?_ ?_ ?_ ?_ ?_
  · rw [h]
    congr 1
    rw [c1ex_diffs, hnd, hdt]
    have hc : min ((3:ℚ)/5 * 10) 1 = 1 := by norm_num [min_def]
    have hm := c1ex_max
    simp only [List.getD_cons_succ, List.getD_cons_zero]
    rw [hm, hc]
  · rw [c1ex_diffs]
    norm_num
  · rw [c1ex_diffs, c1ex_var]
    show exceedsThreshold (3/5) (27/400) = true
    rw [exceedsThreshold, decide_eq_true_eq]
    norm_num
  · intro j hj
    rw [c1ex_diffs, c1ex_var]
    interval_cases j <;>
      · show exceedsThreshold 0 (27/400) = false
        rw [exceedsThreshold]
        norm_num
  · rw [hnd]
    norm_num
  · rw [hnd, c1ex_max]
    rfl
  · intro j hj
    rw [hnd, c1ex_max]
    interval_cases j <;> norm_num

/-- Witness for C1 at the concrete series `[0.2, 0.2, 0.2, 0.8, 0.8]` (values
scaled as rationals `1/5`, `4/5`, dates 8 days apart): the first qualifying
difference is at diff index 2 and the peak at sample index 3. -/
theorem c1_witness :
    detect_bloom_from_ndvi
      [⟨0, 1/5, false⟩, ⟨8, 1/5, false⟩, ⟨16, 1/5, false⟩, ⟨24, 4/5, false⟩,
        ⟨32, 4/5, false⟩] = some ⟨16, 1/5, 24, 4/5, 1⟩ := by
  have hnd : ([⟨0, 1/5, false⟩, ⟨8, 1/5, false⟩, ⟨16, 1/5, false⟩, ⟨24, 4/5, false⟩,
      ⟨32, 4/5, false⟩] : List Sample).map (fun s => s.ndvi)
      = [1/5, 1/5, 1/5, 4/5, 4/5] := rfl
  have hdt : ([⟨0, 1/5, false⟩, ⟨8, 1/5, false⟩, ⟨16, 1/5, false⟩, ⟨24, 4/5, false⟩,
      ⟨32, 4/5, false⟩] : List Sample).map (fun s => s.date)
      = [0, 8, 16, 24, 32] := rfl
  obtain ⟨part1, -⟩ := c1_adaptive_threshold_onset
    [⟨0, 1/5, false⟩, ⟨8, 1/5, false⟩, ⟨16, 1/5, false⟩, ⟨24, 4/5, false⟩,
      ⟨32, 4/5, false⟩] (by norm_num)
  have h := part1 2 3 ?_ ?_ ?_ ?_ ?_ ?_
  · rw [h]
    congr 1
    rw [c1ex_diffs, hnd, hdt]
    have hc : min ((3:ℚ)/5 * 10) 1 = 1 := by norm_num [min_def]
    simp only [List.getD_cons_succ, List.getD_cons_zero]
    rw [hc]
  · rw [c1ex_diffs]
    norm_num
  · rw [c1ex_diffs, c1ex_var]
    show (1.5 : ℝ) * Real.sqrt ((27/400 : ℚ) : ℝ) < ((3/5 : ℚ) : ℝ)
    have hs : Real.sqrt ((27/400 : ℚ) : ℝ) < 2/5 := by
      rw [Real.sqrt_lt' (by norm_num)]
      push_cast
      norm_num
    push_cast
    nlinarith [hs]
  · intro j hj
    rw [c1ex_diffs, c1ex_var]
    interval_cases j <;>
      · show ¬ ((1.5 : ℝ) * Real.sqrt ((27/400 : ℚ) : ℝ) < ((0 : ℚ) : ℝ))
        push_cast
        intro hcon
        nlinarith [Real.sqrt_nonneg ((27/400 : ℚ) : ℝ)]
  · norm_num
  · intro j hj
    simp only [List.length_cons, List.length_nil] at hj
    rw [hnd]
    interval_cases j <;> norm_num
  · intro j hj
    rw [hnd]
    interval_cases j <;> norm_num

/-- Counterexample to C1 as stated: on the series `[0.2, 0.2, 0.2, 0.8, 0.8]`
the jump is between samples 2 and 3, so the claim predicts onset
`(date, ndvi) = (24, 4/5)` (the later sample of the jump pair); the code returns
`(16, 1/5)`, the earlier sample. -/
theorem c1_counterexample :
    (detect_bloom_from_ndvi
        [⟨0, 1/5, false⟩, ⟨8, 1/5, false⟩, ⟨16, 1/5, false⟩, ⟨24, 4/5, false⟩,
          ⟨32, 4/5, false⟩]).map (fun ev => (ev.bloom_onset_date, ev.bloom_onset_ndvi))
        = some (16, 1/5) ∧
      (16, (1:ℚ)/5) ≠ ((24 : ℤ), (4:ℚ)/5) := by
  refine ⟨?_, by norm_num⟩
  rw [detect_c1example]
  rfl

/-! ## Claims C4 and C7 -/

/-- Justification of `intSqrt`: truncating the exact square root of the variance
equals the floor of the real square root, i.e. `int(np.std(...))`. -/
theorem intSqrt_eq_floor_real_sqrt (q : ℚ) (hq : 0 ≤ q) :
    (intSqrt q : ℤ) = ⌊Real.sqrt ((q : ℚ) : ℝ)⌋ := by
  have hm : ((⌊q⌋.toNat : ℤ)) = ⌊q⌋ := Int.toNat_of_nonneg (Int.floor_nonneg.mpr hq)
  have hmq : ((⌊q⌋.toNat : ℕ) : ℚ) = ((⌊q⌋ : ℤ) : ℚ) := by exact_mod_cast hm
  have hq' : (0:ℝ) ≤ ((q : ℚ) : ℝ) := by exact_mod_cast hq
  symm
  rw [Int.floor_eq_iff]
  constructor
  · have h1 : ((Nat.sqrt ⌊q⌋.toNat : ℕ) : ℝ) ^ 2 ≤ ((⌊q⌋.toNat : ℕ) : ℝ) := by
      exact_mod_cast Nat.sqrt_le' ⌊q⌋.toNat
    have h2 : ((⌊q⌋.toNat : ℕ) : ℝ) ≤ ((q : ℚ) : ℝ) := by
      have h3 : ((⌊q⌋.toNat : ℕ) : ℚ) ≤ q := by
        rw [hmq]
        exact Int.floor_le q
      exact_mod_cast h3
    have hx : (0:ℝ) ≤ ((Nat.sqrt ⌊q⌋.toNat : ℕ) : ℝ) := by positivity
    rw [show (((intSqrt q : ℕ) : ℤ) : ℝ) = ((Nat.sqrt ⌊q⌋.toNat : ℕ) : ℝ) by
      rw [intSqrt]; push_cast; ring]
    exact (Real.le_sqrt hx hq').mpr (le_trans h1 h2)
  · have h1 : ((q : ℚ) : ℝ) < (((⌊q⌋.toNat : ℕ) : ℝ) + 1) := by
      have h3 : q < ((⌊q⌋.toNat : ℕ) : ℚ) + 1 := by
        rw [hmq]
        exact Int.lt_floor_add_one q
      exact_mod_cast h3
    have h2 : ((⌊q⌋.toNat : ℕ) : ℝ) + 1 ≤ (((Nat.sqrt ⌊q⌋.toNat + 1 : ℕ) : ℝ)) ^ 2 := by
      have := Nat.lt_succ_sqrt' ⌊q⌋.toNat
      exact_mod_cast Nat.succ_le_of_lt this
    have hlt : ((q : ℚ) : ℝ) < (((Nat.sqrt ⌊q⌋.toNat + 1 : ℕ) : ℝ)) ^ 2 :=
      lt_of_lt_of_le h1 h2
    rw [show (((intSqrt q : ℕ) : ℤ) : ℝ) + 1 = ((Nat.sqrt ⌊q⌋.toNat + 1 : ℕ) : ℝ) by
      rw [intSqrt]; push_cast; ring]
    rw [Real.sqrt_lt' (by positivity)]
    exact hlt
/-- C4 (amended): `predict_bloom_window` returns `None` (a non-error "no
prediction" result) for every history of fewer than 2 records — for zero
historical points and for exactly one alike; no `InsufficientHistoryError`
exists and the two outcomes are not distinct. -/
theorem c4_insufficient_history (hist : List HistRecord) (h : hist.length < 2) :
    predict_bloom_window hist = none := by
  unfold predict_bloom_window
  rw [if_pos h]

/-- Witness for C4: a one-record history yields `none`. -/
theorem c4_witness : predict_bloom_window [⟨2020, 100, 7/10⟩] = none :=
  c4_insufficient_history [⟨2020, 100, 7/10⟩] (by norm_num)

/-- Counterexample to C4 as stated: the one-record outcome is identical to the
zero-record outcome (both `None`), so the failure the claim requires for exactly
one historical point does not exist and is conflated with the absent result. -/
theorem c4_counterexample :
    predict_bloom_window [] = none ∧ predict_bloom_window [⟨2020, 100, 7/10⟩] = none :=
  ⟨rfl, rfl⟩

/-- C7 (amended): with at least 2 historical records, the predicted day-of-year
equals the mean of the historical days TRUNCATED to an integer (`int(np.mean)`),
the window extends the TRUNCATED population standard deviation
(`int(np.std)` = the floor of the real standard deviation, second conjunct) in
days on each side, and the confidence level is high/medium/low as that truncated
deviation is below 7 / below 14 / otherwise. -/
theorem c7_mean_std_prediction (hist : List HistRecord) (h2 : 2 ≤ hist.length) :
    predict_bloom_window hist = some
      { predicted_day := pyInt (listMean (hist.map fun h => (h.day_of_year : ℚ)))
        window_start_day := pyInt (listMean (hist.map fun h => (h.day_of_year : ℚ))) -
          intSqrt (popVar (hist.map fun h => (h.day_of_year : ℚ)))
        window_end_day := pyInt (listMean (hist.map fun h => (h.day_of_year : ℚ))) +
          intSqrt (popVar (hist.map fun h => (h.day_of_year : ℚ)))
        variability_days := intSqrt (popVar (hist.map fun h => (h.day_of_year : ℚ)))
        confidence := if intSqrt (popVar (hist.map fun h => (h.day_of_year : ℚ))) < 7 then
            ConfLevel.high
          else if intSqrt (popVar (hist.map fun h => (h.day_of_year : ℚ))) < 14 then
            ConfLevel.medium
          else ConfLevel.low } ∧
      (intSqrt (popVar (hist.map fun h => (h.day_of_year : ℚ))) : ℤ)
        = ⌊Real.sqrt ((popVar (hist.map fun h => (h.day_of_year : ℚ)) : ℚ) : ℝ)⌋ := by
  constructor
  · unfold predict_bloom_window
    rw [if_neg (by omega)]
  · exact intSqrt_eq_floor_real_sqrt _ (popVar_nonneg _)

/-- Counterexample to C7 as stated: for historical days `[100, 101]` the code
predicts day `int(100.5) = 100`, which is not the mean `100.5`. -/
theorem c7_counterexample :
    (predict_bloom_window [⟨2020, 100, 0⟩, ⟨2021, 101, 0⟩]).map (fun p => p.predicted_day)
        = some 100 ∧
      ¬ (((100 : ℤ) : ℚ) =
        listMean (([⟨2020, 100, 0⟩, ⟨2021, 101, 0⟩] : List HistRecord).map
          fun h => (h.day_of_year : ℚ))) := by
  have hdays : (([⟨2020, 100, 0⟩, ⟨2021, 101, 0⟩] : List HistRecord).map
      fun h => (h.day_of_year : ℚ)) = [100, 101] := by norm_num
  have hmean : listMean [(100 : ℚ), 101] = 201/2 := by norm_num [listMean]
  have hpy : pyInt (201/2 : ℚ) = 100 := by
    unfold pyInt
    rw [if_pos (by norm_num : (0:ℚ) ≤ 201/2), Int.floor_eq_iff]
    constructor <;> norm_num
  constructor
  · unfold predict_bloom_window
    rw [if_neg (by norm_num)]
    show some (pyInt (listMean (([⟨2020, 100, 0⟩, ⟨2021, 101, 0⟩] : List HistRecord).map
      fun h => (h.day_of_year : ℚ)))) = some 100
    rw [hdays, hmean, hpy]
  · rw [hdays, hmean]
    norm_num

/-- Witness for C7 at the claim's instance `[100,105,95,110,90]`: mean 100,
population variance 50, truncated deviation `int(sqrt 50) = 7`, so the predicted
day is 100, the window is `[93, 107]` and the confidence is medium. -/
theorem c7_witness :
    predict_bloom_window
      [⟨2019, 100, 0⟩, ⟨2020, 105, 0⟩, ⟨2021, 95, 0⟩, ⟨2022, 110, 0⟩, ⟨2023, 90, 0⟩]
      = some ⟨100, 93, 107, 7, ConfLevel.medium⟩ := by
  have hdays : (([⟨2019, 100, 0⟩, ⟨2020, 105, 0⟩, ⟨2021, 95, 0⟩, ⟨2022, 110, 0⟩,
      ⟨2023, 90, 0⟩] : List HistRecord).map fun h => (h.day_of_year : ℚ))
      = [100, 105, 95, 110, 90] := by norm_num
  have hmean : listMean [(100:ℚ), 105, 95, 110, 90] = 100 := by norm_num [listMean]
  have hvar : popVar [(100:ℚ), 105, 95, 110, 90] = 50 := by
    norm_num [popVar, listMean]
  have hfl : ⌊(50:ℚ)⌋ = 50 := by norm_num
  have hsq : intSqrt 50 = 7 := by
    unfold intSqrt
    rw [hfl]
    show Nat.sqrt 50 = 7
    symm
    rw [Nat.eq_sqrt']
    norm_num
  have hpy : pyInt (100 : ℚ) = 100 := by
    unfold pyInt
    rw [if_pos (by norm_num)]
    norm_num
  have h := (c7_mean_std_prediction
    [⟨2019, 100, 0⟩, ⟨2020, 105, 0⟩, ⟨2021, 95, 0⟩, ⟨2022, 110, 0⟩, ⟨2023, 90, 0⟩]
    (by norm_num)).1
  rw [h, hdays, hmean, hvar, hsq, hpy]
  decide

/-! ## Claim C5 -/

/-- Justification of the squared embedding of the z-score test: for positive
variance `v` the exact comparison `t^2 * v < (x - m)^2` says precisely
`|x - m| / sqrt v > t`. -/
theorem zscoreGT_iff_real (x m v t : ℚ) (hv : 0 < v) (ht : 0 ≤ t) :
    t ^ 2 * v < (x - m) ^ 2 ↔
      ((t : ℚ) : ℝ) < |((x : ℚ) : ℝ) - ((m : ℚ) : ℝ)| / Real.sqrt ((v : ℚ) : ℝ) := by
  have hv' : (0:ℝ) < ((v : ℚ) : ℝ) := by exact_mod_cast hv
  have ht' : (0:ℝ) ≤ ((t : ℚ) : ℝ) := by exact_mod_cast ht
  have hs : 0 < Real.sqrt ((v : ℚ) : ℝ) := Real.sqrt_pos.mpr hv'
  have hsq : Real.sqrt ((v : ℚ) : ℝ) ^ 2 = ((v : ℚ) : ℝ) := Real.sq_sqrt hv'.le
  rw [lt_div_iff₀ hs]
  have habs : |((x : ℚ) : ℝ) - ((m : ℚ) : ℝ)| ^ 2 = (((x : ℚ) : ℝ) - ((m : ℚ) : ℝ)) ^ 2 :=
    sq_abs _
  have habs0 : (0:ℝ) ≤ |((x : ℚ) : ℝ) - ((m : ℚ) : ℝ)| := abs_nonneg _
  constructor
  · intro h
    have h' : ((t : ℚ) : ℝ) ^ 2 * ((v : ℚ) : ℝ) < (((x : ℚ) : ℝ) - ((m : ℚ) : ℝ)) ^ 2 := by
      exact_mod_cast h
    nlinarith [mul_nonneg ht' hs.le]
  · intro h
    have h' : ((t : ℚ) : ℝ) ^ 2 * ((v : ℚ) : ℝ) < (((x : ℚ) : ℝ) - ((m : ℚ) : ℝ)) ^ 2 := by
      nlinarith [mul_nonneg ht' hs.le]
    exact_mod_cast h'

/-- Core characterization of `detect_outliers` with the exact squared test. -/
theorem detect_outliers_core (values : List ℚ) (t : ℚ) :
    (values.length < 3 → detect_outliers values t = []) ∧
    (popVar values = 0 → detect_outliers values t = []) ∧
    (3 ≤ values.length → popVar values ≠ 0 → ∀ i,
      (i ∈ detect_outliers values t ↔ i < values.length ∧
        t ^ 2 * popVar values < (values.getD i 0 - listMean values) ^ 2)) := by
  refine ⟨?_, ?_, ?_⟩
  · intro h
    unfold detect_outliers
    rw [if_pos h]
  · intro h
    unfold detect_outliers
    by_cases h3 : values.length < 3
    · rw [if_pos h3]
    · rw [if_neg h3, if_pos h]
  · intro h3 hv i
    unfold detect_outliers
    rw [if_neg (by omega), if_neg hv]
    rw [List.mem_filter, List.mem_range]
    simp only [decide_eq_true_eq]

/-- C5 (amended): `detect_outliers` computes the z-score of each supplied value
against the mean and population standard deviation of the whole list and reports
exactly the indices with `|z| > threshold` (default 2.5, not 2); with fewer than
3 values it returns the empty list (not an `InsufficientHistoryError`), and with
zero standard deviation it returns the empty list (no epsilon fallback). -/
theorem c5_outlier_zscores (values : List ℚ) (t : ℚ) (ht : 0 ≤ t) :
    (values.length < 3 → detect_outliers values t = []) ∧
    (popVar values = 0 → detect_outliers values t = []) ∧
    (3 ≤ values.length → popVar values ≠ 0 → ∀ i,
      (i ∈ detect_outliers values t ↔ i < values.length ∧
        ((t : ℚ) : ℝ) < |((values.getD i 0 : ℚ) : ℝ) - ((listMean values : ℚ) : ℝ)| /
          Real.sqrt ((popVar values : ℚ) : ℝ))) := by
  obtain ⟨c1, c2, c3⟩ := detect_outliers_core values t
  refine ⟨c1, c2, ?_⟩
  intro h3 hv i
  have hvpos : 0 < popVar values := lt_of_le_of_ne (popVar_nonneg values) (Ne.symm hv)
  rw [c3 h3 hv i]
  exact and_congr_right fun _ =>
    zscoreGT_iff_real (values.getD i 0) (listMean values) (popVar values) t hvpos ht

/-- Counterexample to C5 as stated: on values `[0,0,0,0,0,1]` the final value has
`|z| = sqrt 5 ≈ 2.24 > 2`, so the claimed rule reports an anomaly, but the code
compares against 2.5 and returns the empty list. -/
theorem c5_counterexample :
    detect_outliers [0, 0, 0, 0, 0, 1] (5/2) = [] ∧
      (2 : ℝ) < |((1 : ℚ) : ℝ) - ((listMean [0, 0, 0, 0, 0, 1] : ℚ) : ℝ)| /
        Real.sqrt ((popVar [0, 0, 0, 0, 0, 1] : ℚ) : ℝ) := by
  have hm : listMean [(0:ℚ), 0, 0, 0, 0, 1] = 1/6 := by norm_num [listMean]
  have hv : popVar [(0:ℚ), 0, 0, 0, 0, 1] = 5/36 := by norm_num [popVar, listMean]
  constructor
  · obtain ⟨-, -, c3⟩ := detect_outliers_core [0, 0, 0, 0, 0, 1] (5/2)
    rw [List.eq_nil_iff_forall_not_mem]
    intro i
    rw [c3 (by norm_num) (by rw [hv]; norm_num) i]
    rintro ⟨hi, hgt⟩
    rw [hm, hv] at hgt
    simp only [List.length_cons, List.length_nil] at hi
    interval_cases i <;> norm_num at hgt
  · rw [hm, hv]
    have h := (zscoreGT_iff_real 1 (1/6) (5/36) 2 (by norm_num) (by norm_num)).mp
      (by norm_num)
    exact_mod_cast h

/-- Witness for C5 at concrete inputs: one value (fewer than 3) and three equal
values (zero variance) both yield the empty list. -/
theorem c5_witness :
    detect_outliers [5] (5/2) = [] ∧ detect_outliers [1, 1, 1] (5/2) = [] := by
  constructor
  · exact (c5_outlier_zscores [5] (5/2) (by norm_num)).1 (by norm_num)
  · exact (c5_outlier_zscores [1, 1, 1] (5/2) (by norm_num)).2.1
      (by norm_num [popVar, listMean])

/-! ## Claim C2 -/

theorem length_filterMap_of_isSome {α β : Type} (f : α → Option β) :
    ∀ l : List α, (∀ x ∈ l, (f x).isSome) → (l.filterMap f).length = l.length := by
  intro l
  induction l with
  | nil => intro _; rfl
  | cons a l ih =>
    intro h
    rw [List.filterMap_cons]
    rcases hf : f a with _ | b
    · have := h a (List.mem_cons_self a l)
      rw [hf] at this
      simp at this
    · rw [List.length_cons, ih fun x hx => h x (List.mem_cons_of_mem a hx)]
      exact (List.length_cons a l).symm

theorem sum_map_const {α : Type} (l : List α) (c : ℕ) :
    (l.map fun _ => c).sum = l.length * c := by
  induction l with
  | nil => simp
  | cons a l ih =>
    rw [List.map_cons, List.sum_cons, ih, List.length_cons]
    ring

theorem get_bloom_map_length (fetch : ℚ → ℚ → List ℚ) (a b c d r : ℚ)
    (hf : ∀ la lo, fetch la lo ≠ []) :
    (get_bloom_map fetch a b c d r).length =
      min 10 (arange a b r).length * min 10 (arange c d r).length := by
  unfold get_bloom_map
  rw [List.length_flatMap]
  have hinner : ∀ lat : ℚ, (((arange c d r).take 10).filterMap fun lon =>
      if (fetch lat lon).isEmpty then none
      else some { lat := lat, lon := lon, ndvi := listMean (fetch lat lon)
                  status := classify_cell (listMean (fetch lat lon)) : GridCell }).length
      = ((arange c d r).take 10).length := by
    intro lat
    apply length_filterMap_of_isSome
    intro lon _
    simp [List.isEmpty_iff, hf lat lon]
  have hmapeq : List.map (List.length ∘ fun lat => ((arange c d r).take 10).filterMap
        fun lon => if (fetch lat lon).isEmpty then none
          else some { lat := lat, lon := lon, ndvi := listMean (fetch lat lon)
                      status := classify_cell (listMean (fetch lat lon)) : GridCell })
      ((arange a b r).take 10)
      = List.map (fun _ => ((arange c d r).take 10).length) ((arange a b r).take 10) :=
    List.map_congr_left fun lat _ => hinner lat
  rw [hmapeq, sum_map_const, List.length_take, List.length_take]

theorem generate_grid_points_length (a b c d r : ℚ) :
    (generate_grid_points a b c d r).length =
      (arange a b r).length * (arange c d r).length := by
  unfold generate_grid_points
  rw [List.length_flatMap]
  have hmapeq : List.map (List.length ∘ fun lat => (arange c d r).map fun lon => (lat, lon))
      (arange a b r) = List.map (fun _ => (arange c d r).length) (arange a b r) :=
    List.map_congr_left fun lat _ => by simp
  rw [hmapeq, sum_map_const]

theorem arange_0_11_1_length : (arange 0 11 1).length = 11 := by
  unfold arange
  rw [if_pos (by norm_num), List.length_map, List.length_range]
  norm_num
  decide

theorem arange_0_1_1_length : (arange 0 1 1).length = 1 := by
  unfold arange
  rw [if_pos (by norm_num), List.length_map, List.length_range]
  norm_num

/-- C2 (amended): the bloom-map scan classifies only the first
`min(10, number of latitudes) x min(10, number of longitudes)` generated grid
points (the code truncates with `lats[:10]` / `lons[:10]`), while the grid
generator itself is uncapped. -/
theorem c2_grid_truncation (fetch : ℚ → ℚ → List ℚ) (a b c d r : ℚ)
    (hf : ∀ la lo, fetch la lo ≠ []) :
    (get_bloom_map fetch a b c d r).length =
        min 10 (arange a b r).length * min 10 (arange c d r).length ∧
      (generate_grid_points a b c d r).length =
        (arange a b r).length * (arange c d r).length :=
  ⟨get_bloom_map_length fetch a b c d r hf, generate_grid_points_length a b c d r⟩

/-- Counterexample to C2 as stated: with bounds yielding 11 latitudes and 1
longitude, the generator produces 11 points but the scan evaluates only 10. -/
theorem c2_counterexample :
    (get_bloom_map (fun _ _ => [1/2]) 0 11 0 1 1).length = 10 ∧
      (generate_grid_points 0 11 0 1 1).length = 11 := by
  constructor
  · rw [get_bloom_map_length (fun _ _ => [1/2]) 0 11 0 1 1 fun _ _ => by simp,
      arange_0_11_1_length, arange_0_1_1_length]
    decide
  · rw [generate_grid_points_length, arange_0_11_1_length, arange_0_1_1_length]

/-- Witness for C2 at a concrete grid: 11 latitudes and 1 longitude with a
constant nonempty fetch yield exactly 10 classified cells. -/
theorem c2_witness :
    (get_bloom_map (fun _ _ => [1/2]) 0 11 0 1 1).length = 10 := by
  have h := (c2_grid_truncation (fun _ _ => [1/2]) 0 11 0 1 1 fun _ _ => by simp).1
  rw [h, arange_0_11_1_length, arange_0_1_1_length]
  decide

end BloomTracker
